import Mathlib

/-!
Verification of the PyFlow.ts type-resolution and stub-emission pipeline.

Shallow embedding of the generation core:
  * `python_type_to_ts_type`  (src/pyflow/utils/type_converter.py)
  * `generate_ts_function` parameter rendering (same file)
  * the emitted proxy-class runtime semantics (`_ensureInstance`,
    `_callPythonMethod`, `DefaultPyFlowRuntime.createInstance` / `callMethod`
    from src/pyflow/utils/type_converter.py and
    src/pyflow/generators/ts_generator.py)
  * `Registry.register_function` / `Registry.register_class` (src/pyflow/core.py)
  * `get_referenced_types` / `get_all_referenced_types`
    (src/pyflow/utils/inspect_utils.py)
  * `TypeScriptGenerator.generate_module` / `generate_index` / `generate_all`
    file-system effects (src/pyflow/generators/ts_generator.py)

Python machine values and type annotations are modelled by explicit inductive
types; Python dicts by association lists with in-place-overwriting insertion
(`upsert`), Python sets by duplicate-free insertion lists.
-/

/-! ## Python type annotations (the input of `python_type_to_ts_type`)

A Python annotation object, as discriminated by the chain of tests in
`python_type_to_ts_type`: the `is` tests against primitives and well-known
classes, then `get_origin`/`get_args` for generic aliases, then
`inspect.isclass`, then the final fallback.  `PyTypeList` is the argument
tuple of a generic alias (`get_args`); a mutual inductive is used (rather
than a nested `List PyType`) so that the resolver is structurally recursive
and reduces inside the kernel. -/

mutual

inductive PyType where
  | noneTy        -- None / NoneType
  | strTy | intTy | floatTy | boolTy | bytesTy | complexTy
  | anyTy         -- typing.Any
  | bareList | bareDict | bareTuple | bareSet
  | datetimeTy | dateTy | uuidTy
  | listOf (args : PyTypeList)      -- get_origin is list
  | dictOf (args : PyTypeList)      -- get_origin is dict
  | tupleOf (args : PyTypeList)     -- get_origin is tuple
  | setOf (args : PyTypeList)       -- get_origin is set / frozenset
  | unionOf (args : PyTypeList)     -- get_origin is Union
  | classRef (name : String)        -- inspect.isclass holds, none of the above
  | ellipsisTy                      -- the Ellipsis object (inside tuple args)
  | unknownTy                       -- anything matching no rule at all

inductive PyTypeList where
  | nil
  | cons (head : PyType) (tail : PyTypeList)

end

def PyTypeList.ofList : List PyType → PyTypeList
  | [] => .nil
  | t :: ts => .cons t (PyTypeList.ofList ts)

/-- Test `args[1] is type(None)` on the head of a list tail. -/
def PyType.isNone : PyType → Bool
  | .noneTy => true
  | _ => false

/-- Identity test `key_type is str`. -/
def PyType.isStrTy : PyType → Bool
  | .strTy => true
  | _ => false

/-- Identity test `key_type is int`. -/
def PyType.isIntTy : PyType → Bool
  | .intTy => true
  | _ => false

/-- Test `Ellipsis in args` of the tuple branch. -/
def PyTypeList.hasEllipsis : PyTypeList → Bool
  | .nil => false
  | .cons .ellipsisTy _ => true
  | .cons _ ts => PyTypeList.hasEllipsis ts

mutual

/-- Embedding of `python_type_to_ts_type`
(src/pyflow/utils/type_converter.py, lines 12-118).  Each arm transcribes
one branch of the source, in source order; the two-element union arm fuses
the source's `Optional` special case (`len(args) == 2 and args[1] is
type(None)`) with what the generic `" | ".join` produces on the same two
elements. -/
def python_type_to_ts_type : PyType → String
  | .noneTy => "null"
  | .strTy => "string"
  | .intTy => "number"
  | .floatTy => "number"
  | .boolTy => "boolean"
  | .bytesTy => "Uint8Array"
  | .complexTy => "\x7b re: number, im: number \x7d"
  | .anyTy => "any"
  | .bareList => "any[]"
  | .bareDict => "Record<string, any>"
  | .bareTuple => "any[]"
  | .bareSet => "Set<any>"
  | .datetimeTy => "string"
  | .dateTy => "string"
  | .uuidTy => "string"
  | .unionOf (.cons a (.cons b .nil)) =>
      if b.isNone then python_type_to_ts_type a ++ " | null"
      else python_type_to_ts_type a ++ " | " ++ python_type_to_ts_type b
  | .unionOf args => String.intercalate " | " (resolveEach args)
  | .listOf .nil => "any[]"
  | .listOf (.cons t _) => python_type_to_ts_type t ++ "[]"
  | .dictOf (.cons k (.cons v _)) =>
      if k.isStrTy then "Record<string, " ++ python_type_to_ts_type v ++ ">"
      else if k.isIntTy then "Record<number, " ++ python_type_to_ts_type v ++ ">"
      else "Record<string, " ++ python_type_to_ts_type v ++ ">"
  | .dictOf _ => "Record<string, any>"
  | .tupleOf .nil => "any[]"
  | .tupleOf (.cons t ts) =>
      if (PyTypeList.cons t ts).hasEllipsis then python_type_to_ts_type t ++ "[]"
      else "[" ++ String.intercalate ", " (resolveEach (.cons t ts)) ++ "]"
  | .setOf .nil => "Set<any>"
  | .setOf (.cons t _) => "Set<" ++ python_type_to_ts_type t ++ ">"
  | .classRef name => name
  | .ellipsisTy => "any"
  | .unknownTy => "any"

/-- The generator expression `python_type_to_ts_type(arg) for arg in args`. -/
def resolveEach : PyTypeList → List String
  | .nil => []
  | .cons t ts => python_type_to_ts_type t :: resolveEach ts

end

example : python_type_to_ts_type (.unionOf (.ofList [.strTy, .noneTy])) = "string | null" := rfl
example : python_type_to_ts_type (.unionOf (.ofList [.noneTy, .strTy])) = "null | string" := rfl
example : python_type_to_ts_type (.unionOf (.ofList [.strTy, .intTy])) = "string | number" := rfl
example : python_type_to_ts_type (.dictOf (.ofList [.strTy, .intTy])) = "Record<string, number>" := rfl
example : python_type_to_ts_type (.dictOf (.ofList [.floatTy, .intTy])) = "Record<string, number>" := rfl
example : python_type_to_ts_type (.tupleOf (.ofList [.strTy, .intTy])) = "[string, number]" := rfl
example : python_type_to_ts_type (.tupleOf (.ofList [.strTy, .ellipsisTy])) = "string[]" := rfl
example : python_type_to_ts_type (.listOf (.ofList [.strTy])) = "string[]" := rfl
example : python_type_to_ts_type (.setOf (.ofList [.strTy])) = "Set<string>" := rfl

/-! ## Claims C4, C5, C8 — the type resolver -/

/-- Claim C4, counterexample: the claim says a two-variant union with a null
variant collapses to "resolve(T) | null" in either variant order, but the
source only tests `args[1] is type(None)`; with null as the first variant the
generic union rule fires and yields "null | string", not "string | null". -/
theorem C4_counterexample :
    python_type_to_ts_type (.unionOf (.ofList [.noneTy, .strTy])) = "null | string"
    ∧ python_type_to_ts_type (.unionOf (.ofList [.noneTy, .strTy]))
        ≠ python_type_to_ts_type .strTy ++ " | null" :=
  ⟨rfl, by decide⟩

/-- Claim C4, amended: a two-variant union collapses to "resolve(T) | null"
exactly when null is the second variant; with null as the first variant the
generic union join emits "null | resolve(T)". -/
theorem C4_amended (t : PyType) :
    python_type_to_ts_type (.unionOf (.ofList [t, .noneTy]))
      = python_type_to_ts_type t ++ " | null"
    ∧ python_type_to_ts_type (.unionOf (.ofList [.noneTy, t]))
      = "null | " ++ python_type_to_ts_type t := by
  cases t <;> exact ⟨rfl, rfl⟩

/-- Claim C5 (confirmed): the resolver is a total function — in this shallow
embedding `python_type_to_ts_type` is a total structurally recursive function,
so every descriptor resolves to some string and no exception can be raised —
and a descriptor matching no specific rule (the `unknownTy` fallback, or the
bare `Ellipsis` object) resolves to the universal "any" fallback. -/
theorem C5_resolver_total_fallback :
    python_type_to_ts_type .unknownTy = "any"
    ∧ python_type_to_ts_type .ellipsisTy = "any"
    ∧ ∀ d : PyType, ∃ ts : String, python_type_to_ts_type d = ts :=
  ⟨rfl, rfl, fun _ => ⟨_, rfl⟩⟩

/-- Claim C8, counterexample: `float` resolves to the number static type, so
the claim requires `Dict[float, int]` to be a keyed map over
"resolve(float) = number"; the source, however, tests `key_type is str` /
`key_type is int` by identity, so a float key falls into the fallback branch
and yields the string-keyed "Record<string, number>". -/
theorem C8_counterexample :
    python_type_to_ts_type .floatTy = "number"
    ∧ python_type_to_ts_type (.dictOf (.ofList [.floatTy, .intTy]))
        = "Record<string, number>"
    ∧ python_type_to_ts_type (.dictOf (.ofList [.floatTy, .intTy]))
        ≠ "Record<number, number>" :=
  ⟨rfl, rfl, by decide⟩

/-- Claim C8, amended: a keyed-map descriptor yields a keyed map over
resolve(K) and resolve(V) only when K is literally the `str` type or the
`int` type; every other key type — including `float`, which itself resolves
to number — is coerced to the string-keyed map "Record<string, resolve(V)>". -/
theorem C8_amended (k v : PyType) (rest : PyTypeList)
    (hs : k.isStrTy = false) (hi : k.isIntTy = false) :
    python_type_to_ts_type (.dictOf (.cons .strTy (.cons v rest)))
      = "Record<string, " ++ python_type_to_ts_type v ++ ">"
    ∧ python_type_to_ts_type (.dictOf (.cons .intTy (.cons v rest)))
      = "Record<number, " ++ python_type_to_ts_type v ++ ">"
    ∧ python_type_to_ts_type (.dictOf (.cons k (.cons v rest)))
      = "Record<string, " ++ python_type_to_ts_type v ++ ">" := by
  refine ⟨rfl, rfl, ?_⟩
  cases k <;> first | rfl | simp_all [PyType.isStrTy, PyType.isIntTy]

/-- Witness for C8_amended at a concrete boolean-keyed map. -/
theorem C8_amended_witness :
    python_type_to_ts_type (.dictOf (.cons .boolTy (.cons .intTy .nil)))
      = "Record<string, number>" :=
  (C8_amended .boolTy .intTy .nil rfl rfl).2.2

/-! ## Python literal values (parameter defaults)

A literal default value of a function parameter, as discriminated by
`generate_ts_function`: `isinstance(param.default, str)`, then
`param.default is None`, then the generic f-string interpolation
`f"= \x7bparam.default\x7d"`, which renders via Python's `str()`. -/

inductive PyValue where
  | strV (s : String)
  | noneV
  | intV (n : Int)
  | boolV (b : Bool)
deriving DecidableEq

/-- Python's `str()` of a literal, as produced by f-string interpolation:
integers print in decimal, booleans print capitalized `True` / `False`. -/
def pyStr : PyValue → String
  | .strV s => s
  | .noneV => "None"
  | .intV n => toString n
  | .boolV b => if b then "True" else "False"

/-- One parameter of an exposed function: its name, its entry in
`get_type_hints` (absent when the parameter is unannotated, in which case the
source falls back to `Any`), and its default (`none` models
`inspect.Parameter.empty`, i.e. no default). -/
structure FnParam where
  name : String
  type_hint : Option PyType
  default : Option PyValue

/-- An exposed Python function as `generate_ts_function` consumes it. -/
structure PyFunction where
  name : String
  qualname : String
  module_ : String
  params : List FnParam
  return_hint : Option PyType

/-- Embedding of the parameter-rendering loop of `generate_ts_function`
(src/pyflow/utils/type_converter.py, lines 393-406): string defaults are
wrapped in single quotes, `None` becomes `null`, anything else is rendered
through f-string interpolation (`str()`), and a parameter without a default
is emitted bare (mandatory). -/
def renderParam (p : FnParam) : String :=
  let ts_type := python_type_to_ts_type (p.type_hint.getD .anyTy)
  match p.default with
  | some (.strV s) => p.name ++ ": " ++ ts_type ++ " = \x27" ++ s ++ "\x27"
  | some .noneV => p.name ++ ": " ++ ts_type ++ " = null"
  | some d => p.name ++ ": " ++ ts_type ++ " = " ++ pyStr d
  | none => p.name ++ ": " ++ ts_type

/-- Embedding of `generate_ts_function` (src/pyflow/utils/type_converter.py,
lines 380-416): the exported function declaration, with the body forwarding
to `pyflowRuntime.callFunction` with the module name, function name and the
name→value argument record. -/
def generate_ts_function (f : PyFunction) : String :=
  let params := f.params.map renderParam
  let ts_return_type := python_type_to_ts_type (f.return_hint.getD .anyTy)
  let func_body :=
    "  // This is where the real implementation would call the Python backend\n"
      ++ "  return pyflowRuntime.callFunction(\x27" ++ f.module_ ++ "\x27, \x27"
      ++ f.name ++ "\x27, \x7b"
      ++ String.intercalate ", " (f.params.map fun p => p.name ++ ": " ++ p.name)
      ++ "\x7d) as " ++ ts_return_type ++ ";"
  "export function " ++ f.name ++ "(" ++ String.intercalate ", " params ++ "): "
    ++ ts_return_type ++ " \x7b\n" ++ func_body ++ "\n\x7d"

example : renderParam ⟨"b", some .strTy, some (.strV "default")⟩ = "b: string = \x27default\x27" := rfl
example : renderParam ⟨"a", some .intTy, none⟩ = "a: number" := rfl
example : renderParam ⟨"c", some (.unionOf (.ofList [.intTy, .noneTy])), some .noneV⟩ = "c: number | null = null" := rfl

/-- Claim C9 (code bug): a boolean literal default is not reproduced as the
consumer-language boolean literal — the f-string interpolation renders
Python's capitalized spelling, so a parameter `flag: bool = True` is emitted
as `flag: boolean = True`, which is not the boolean literal `true` (and is
not valid TypeScript).  Text defaults and missing defaults do follow the
claim: the same parameter without a default is emitted mandatory, and a
string default `"x"` is reproduced verbatim as `'x'`. -/
theorem C9_bool_default_eval :
    renderParam ⟨"flag", some .boolTy, some (.boolV true)⟩ = "flag: boolean = True"
    ∧ renderParam ⟨"flag", some .boolTy, some (.boolV true)⟩ ≠ "flag: boolean = true"
    ∧ renderParam ⟨"flag", some .boolTy, none⟩ = "flag: boolean"
    ∧ renderParam ⟨"s", some .strTy, some (.strV "x")⟩ = "s: string = \x27x\x27" :=
  ⟨rfl, by decide, rfl, rfl⟩

/-! ## The Registry (src/pyflow/core.py)

Python dicts are modelled as association lists with `upsert` (assignment
`d[k] = v`: overwrite in place when the key is present, append otherwise);
Python sets of strings as duplicate-free insertion lists (`setInsertStr`). -/

def upsert {α : Type} (k : String) (v : α) : List (String × α) → List (String × α)
  | [] => [(k, v)]
  | (k', v') :: rest => if k' = k then (k, v) :: rest else (k', v') :: upsert k v rest

def lookupA {α : Type} (k : String) : List (String × α) → Option α
  | [] => none
  | (k', v') :: rest => if k' = k then some v' else lookupA k rest

def setInsertStr (m : String) (l : List String) : List String :=
  if m ∈ l then l else l ++ [m]

theorem upsert_upsert {α : Type} (k : String) (v : α) (l : List (String × α)) :
    upsert k v (upsert k v l) = upsert k v l := by
  induction l with
  | nil => simp [upsert]
  | cons hd tl ih =>
    obtain ⟨k', v'⟩ := hd
    by_cases h : k' = k
    · simp [upsert, h]
    · simp [upsert, h, ih]

theorem setInsertStr_idem (m : String) (l : List String) :
    setInsertStr m (setInsertStr m l) = setInsertStr m l := by
  unfold setInsertStr
  by_cases h : m ∈ l
  · simp [h]
  · simp [h]

theorem keys_upsert {α : Type} (k : String) (v : α) (l : List (String × α)) :
    (upsert k v l).map Prod.fst
      = if k ∈ l.map Prod.fst then l.map Prod.fst else l.map Prod.fst ++ [k] := by
  induction l with
  | nil => simp [upsert]
  | cons hd tl ih =>
    obtain ⟨k', v'⟩ := hd
    by_cases h : k' = k
    · simp [upsert, h]
    · simp only [upsert, if_neg h, List.map_cons, ih]
      have hne : ¬ k = k' := fun hh => h hh.symm
      by_cases hm : k ∈ tl.map Prod.fst <;> simp [hm, hne]

theorem keys_upsert_nodup {α : Type} (k : String) (v : α) (l : List (String × α))
    (h : (l.map Prod.fst).Nodup) : ((upsert k v l).map Prod.fst).Nodup := by
  rw [keys_upsert]
  by_cases hm : k ∈ l.map Prod.fst
  · simpa [hm] using h
  · simp only [if_neg hm]
    exact List.Nodup.append h (List.nodup_singleton k) (by simpa using hm)

/-- Python's `name.startswith('_')` for the single-character prefix: the
first character is an underscore.  (Defined on the character list so that it
reduces inside the kernel.) -/
def startsWithUnderscore (s : String) : Bool :=
  match s.data with
  | [] => false
  | c :: _ => c == '_'

/-! ### Registered entities -/

/-- A function object as seen by `inspect.getmembers(cls, inspect.isfunction)`:
its name and its `_pyflow_decorated` marker (`getattr(method,
'_pyflow_decorated', False)`).  The stored `type_hints` / `signature` payloads
of a registry entry are deterministic functions of the method object, so the
method value itself stands for the entry payload. -/
structure PyMethod where
  name : String
  pyflow_decorated : Bool
deriving DecidableEq

/-- One entry of `cls.__annotations__`: the attribute name, its annotation,
and — when `hasattr(cls, name)` — the class-level value. -/
structure PyAnn where
  name : String
  type_hint : PyType
  has_value : Bool
  value : PyValue

/-- A Python class as `Registry.register_class` consumes it.  `methods` is
`inspect.getmembers(cls, inspect.isfunction)` (unique names, name-sorted);
`anns` is `cls.__annotations__` in insertion order; `pyflow_decorated` is the
class-level `_pyflow_decorated` attribute. -/
structure PyClass where
  qualname : String
  methods : List PyMethod
  anns : List PyAnn
  pyflow_decorated : Bool

/-- The value stored for one class variable: `{'type': value, 'default': …}`;
the default is the class-level value when present, else Python `None`. -/
structure ClassVarEntry where
  type_hint : PyType
  default : Option PyValue

/-- The value stored in `registry.classes[qualname]`.  The `cls` field holds
the class object itself; since `register_class` sets `_pyflow_decorated` on
it before returning, the stored class value carries `pyflow_decorated = true`. -/
structure ClassEntry where
  cls : PyClass
  module_ : String
  methods : List (String × PyMethod)
  class_vars : List (String × ClassVarEntry)

/-- The value stored in `registry.functions[qualname]`. -/
structure FuncEntry where
  func : PyFunction
  module_ : String

/-- The PyFlow.ts registry state: `functions`, `classes`, `modules`. -/
structure Registry where
  functions : List (String × FuncEntry)
  classes : List (String × ClassEntry)
  modules : List String

/-- The method-filtering loop of `Registry.register_class`
(src/pyflow/core.py, lines 40-47): keep a method iff it is public (name not
starting with an underscore) or is `__init__`, and its own
`_pyflow_decorated` marker is `False`.  `inspect.getmembers` yields uniquely
named members, so the dict build is a filter. -/
def registryMethods (cls : PyClass) : List (String × PyMethod) :=
  (cls.methods.filter fun meth =>
      (!(startsWithUnderscore meth.name) || meth.name == "__init__")
        && meth.pyflow_decorated == false).map fun meth => (meth.name, meth)

/-- The class-variable loop of `Registry.register_class`
(src/pyflow/core.py, lines 49-63): public annotated attributes, with the
class-level value as default when `hasattr(cls, name)`, else `None`. -/
def registryClassVars (cls : PyClass) : List (String × ClassVarEntry) :=
  (cls.anns.filter fun a => !(startsWithUnderscore a.name)).map fun a =>
    (a.name, ⟨a.type_hint, if a.has_value then some a.value else none⟩)

/-- Embedding of `Registry.register_function` (src/pyflow/core.py,
lines 25-33). -/
def register_function (r : Registry) (f : PyFunction) (m : String) : Registry :=
  { r with
    functions := upsert f.qualname ⟨f, m⟩ r.functions
    modules := setInsertStr m r.modules }

/-- Embedding of `Registry.register_class` (src/pyflow/core.py, lines 35-76).
The source mutates `cls` (`setattr(cls, '_pyflow_decorated', True)`); the
model returns the updated class value alongside the new registry state, and
the stored entry holds that updated value (the dict stores a reference to the
mutated object). -/
def register_class (r : Registry) (cls : PyClass) (m : String) : Registry × PyClass :=
  let cls' : PyClass := { cls with pyflow_decorated := true }
  let entry : ClassEntry :=
    { cls := cls', module_ := m
      methods := registryMethods cls, class_vars := registryClassVars cls }
  ({ r with
      classes := upsert cls.qualname entry r.classes
      modules := setInsertStr m r.modules },
   cls')

/-! ## Claims C7 and C10 — registration -/

/-- Claim C7 (confirmed): registering an already-registered qualified name
leaves the registry in the same state — for both functions and classes,
performing `register` twice (threading the returned, now-marked class value,
as Python's object mutation does) produces exactly the state of performing it
once, and the qualified-name keys of the registry stay duplicate-free. -/
theorem C7_register_idempotent (r : Registry) (f : PyFunction) (cls : PyClass)
    (m : String)
    (hf : (r.functions.map Prod.fst).Nodup) (hc : (r.classes.map Prod.fst).Nodup) :
    register_function (register_function r f m) f m = register_function r f m
    ∧ register_class (register_class r cls m).1 (register_class r cls m).2 m
        = register_class r cls m
    ∧ (((register_function r f m).functions.map Prod.fst).Nodup
        ∧ ((register_class r cls m).1.classes.map Prod.fst).Nodup) := by
  refine ⟨?_, ?_, keys_upsert_nodup _ _ _ hf, keys_upsert_nodup _ _ _ hc⟩
  · simp [register_function, upsert_upsert, setInsertStr_idem]
  · simp [register_class, registryMethods, registryClassVars, upsert_upsert,
      setInsertStr_idem]

/-- Witness for C7_register_idempotent on a concrete registry, function and
class. -/
theorem C7_register_idempotent_witness :
    register_function (register_function ⟨[], [], []⟩ ⟨"f", "f", "mod", [], none⟩ "mod")
        ⟨"f", "f", "mod", [], none⟩ "mod"
      = register_function ⟨[], [], []⟩ ⟨"f", "f", "mod", [], none⟩ "mod" :=
  (C7_register_idempotent ⟨[], [], []⟩ ⟨"f", "f", "mod", [], none⟩
    ⟨"C", [⟨"run", false⟩], [], false⟩ "mod" (by simp) (by simp)).1

/-- Claim C10 (confirmed): the recorded method set of a registered class
contains an entry only for methods that are public or `__init__` AND do not
carry the per-method `_pyflow_decorated` marker; a method individually marked
for exposure before its class is registered is omitted from the class's
recorded methods. -/
theorem C10_method_filter (cls : PyClass) (p : String × PyMethod)
    (hp : p ∈ registryMethods cls) :
    ((¬ startsWithUnderscore p.2.name ∨ p.2.name = "__init__")
        ∧ p.2.pyflow_decorated = false)
    ∧ ∀ meth : PyMethod, meth.pyflow_decorated = true →
        (meth.name, meth) ∉ registryMethods cls := by
  constructor
  · simp only [registryMethods, List.mem_map, List.mem_filter] at hp
    obtain ⟨meth, ⟨_, hcond⟩, hpe⟩ := hp
    subst hpe
    simp only [Bool.and_eq_true, Bool.or_eq_true, Bool.not_eq_true',
      beq_iff_eq] at hcond
    obtain ⟨h1, h2⟩ := hcond
    refine ⟨?_, h2⟩
    rcases h1 with h | h
    · exact Or.inl (by simp [h])
    · exact Or.inr h
  · intro meth hdec hmem
    simp only [registryMethods, List.mem_map, List.mem_filter] at hmem
    obtain ⟨meth', ⟨_, hcond⟩, hpe⟩ := hmem
    have : meth' = meth := congrArg Prod.snd hpe
    subst this
    simp [hdec] at hcond

/-- Witness for C10_method_filter: a public undecorated method is recorded,
and its recorded entry satisfies the filter; the individually decorated
method `bump` is omitted. -/
theorem C10_method_filter_witness :
    ((¬ startsWithUnderscore "run" ∨ ("run" : String) = "__init__")
      ∧ false = false)
    ∧ (("bump", (⟨"bump", true⟩ : PyMethod))
        ∉ registryMethods ⟨"C", [⟨"run", false⟩, ⟨"bump", true⟩], [], false⟩) := by
  have h := C10_method_filter ⟨"C", [⟨"run", false⟩, ⟨"bump", true⟩], [], false⟩
    ("run", ⟨"run", false⟩) (by decide)
  exact ⟨h.1, h.2 ⟨"bump", true⟩ rfl⟩

/-! ## The referenced-type closure (src/pyflow/utils/inspect_utils.py)

`get_referenced_types` collects, from a function's or class's annotations,
every value that is a class and not one of the built-ins, into a Python set;
`get_all_referenced_types` walks a module's members and builds a dict keyed
by class name containing every module-local class together with the
module-local classes each of them references. -/

/-- One annotation value as classified by `get_referenced_types`:
`inspect.isclass(x)` and not a built-in (a class, carrying its name and its
`__module__`), a built-in class (`str`, `int`, `float`, `bool`, `list`,
`dict`, `set`, `tuple`), or not a class at all. -/
inductive Hint where
  | classH (name : String) (module_ : String)
  | builtinH
  | otherH

/-- A module-level class as the closure walk sees it: its name, its
`__module__`, the annotation values found across its methods' type hints,
and its own `__annotations__` values. -/
structure ClosureClass where
  name : String
  module_ : String
  method_hints : List Hint
  ann_hints : List Hint

/-- Insertion `referenced_types.add(...)` on a Python set, modelled as duplicate-free
insertion. -/
def setInsertPair (x : String × String) (l : List (String × String)) :
    List (String × String) :=
  if x ∈ l then l else l ++ [x]

/-- Embedding of `get_referenced_types` on a class
(src/pyflow/utils/inspect_utils.py, lines 97-119): the set of (name, module)
of every non-built-in class occurring in the class's method type hints or
annotations. -/
def get_referenced_types (c : ClosureClass) : List (String × String) :=
  (c.method_hints ++ c.ann_hints).foldl
    (fun acc h =>
      match h with
      | .classH n m => setInsertPair (n, m) acc
      | _ => acc) []

/-- Embedding of `get_all_referenced_types`
(src/pyflow/utils/inspect_utils.py, lines 121-135): for every module member
that is a class defined in the module, store it in the dict under its name,
then store each of its referenced types that belongs to the same module;
dict assignment (`upsert`) keeps each name at most once. -/
def get_all_referenced_types (moduleName : String) (members : List ClosureClass) :
    List (String × String) :=
  members.foldl
    (fun acc c =>
      if c.module_ = moduleName then
        (get_referenced_types c).foldl
          (fun acc2 r => if r.2 = moduleName then upsert r.1 r.1 acc2 else acc2)
          (upsert c.name c.name acc)
      else acc) []

/-- Claim C6 (confirmed): for a module holding two mutually referencing
classes A and B (A's hints reference B, B's hints reference A), the
referenced-type collection terminates (it is a total fold here — the source
walk recurses only one level into direct references, and the dict keyed by
class name absorbs re-discoveries before anything is revisited) and the
resulting set contains A exactly once and B exactly once. -/
theorem C6_mutual_reference_closure (mod a b : String) (h : a ≠ b) :
    get_all_referenced_types mod
        [⟨a, mod, [.classH b mod], []⟩, ⟨b, mod, [.classH a mod], []⟩]
      = [(a, a), (b, b)]
    ∧ ((get_all_referenced_types mod
        [⟨a, mod, [.classH b mod], []⟩, ⟨b, mod, [.classH a mod], []⟩]).map
          Prod.fst).count a = 1
    ∧ ((get_all_referenced_types mod
        [⟨a, mod, [.classH b mod], []⟩, ⟨b, mod, [.classH a mod], []⟩]).map
          Prod.fst).count b = 1 := by
  have he : get_all_referenced_types mod
      [⟨a, mod, [.classH b mod], []⟩, ⟨b, mod, [.classH a mod], []⟩]
      = [(a, a), (b, b)] := by
    simp [get_all_referenced_types, get_referenced_types, setInsertPair, upsert,
      h, Ne.symm h]
  refine ⟨he, ?_, ?_⟩ <;> rw [he] <;>
    simp [List.count_cons, h, Ne.symm h]

/-- Witness for C6_mutual_reference_closure at concrete class names. -/
theorem C6_mutual_reference_closure_witness :
    get_all_referenced_types "m"
        [⟨"A", "m", [.classH "B" "m"], []⟩, ⟨"B", "m", [.classH "A" "m"], []⟩]
      = [("A", "A"), ("B", "B")] :=
  (C6_mutual_reference_closure "m" "A" "B" (by decide)).1

/-! ## Emitted proxy classes and the client runtime

Semantics of the TypeScript that `generate_ts_class` emits
(src/pyflow/utils/type_converter.py, lines 325-342) running against the
`DefaultPyFlowRuntime` of `TypeScriptGenerator.runtime_code`
(src/pyflow/generators/ts_generator.py, lines 30-158):

  * every proxy object carries `_constructorArgs` and
    `_instanceId: string | null = null`;
  * `_ensureInstance` tests JS truthiness of `_instanceId` (both `null` and
    the empty string are falsy) and, when falsy, awaits
    `pyflowRuntime.createInstance(className, constructorArgs)` and stores the
    returned id;
  * `_callPythonMethod` awaits `_ensureInstance`, then calls
    `pyflowRuntime.callMethod(className, methodName, args, constructorArgs)`
    — with no instance id of its own;
  * the runtime's `createInstance` posts a create-instance request and
    records the returned id in `instanceCache` (a `Map` keyed by class name);
    its `callMethod` posts a call-method request whose `instance_id` field is
    `instanceCache.get(className)`.

Argument records are modelled as name→value association lists of strings;
the remote collaborator is an environment `env : Nat → String` giving the id
returned by the n-th create-instance call.  The state also carries a ghost
trace `creators` recording, for each create-instance request, the index of
the proxy whose `_ensureInstance` issued it. -/

structure Proxy where
  className : String
  constructorArgs : List (String × String)
  instanceId : Option String
deriving DecidableEq

/-- JS truthiness of a `string | null` value: `null` and `""` are falsy. -/
def truthy : Option String → Bool
  | none => false
  | some s => !(s == "")

/-- A request posted to the remote-call protocol endpoints. -/
inductive Request where
  | createInstance (className : String) (constructor_args : List (String × String))
  | callMethod (className methodName : String)
      (args constructor_args : List (String × String)) (instance_id : Option String)
deriving DecidableEq

def Request.isCreate : Request → Bool
  | .createInstance _ _ => true
  | _ => false

structure SysState where
  proxies : List Proxy
  instanceCache : List (String × String)
  created : Nat
  requests : List Request
  creators : List Nat
deriving DecidableEq

def initState : SysState := ⟨[], [], 0, [], []⟩

/-- Number of create-instance requests issued so far. -/
def createCount (st : SysState) : Nat := st.requests.countP (fun r => r.isCreate)

/-- Runtime operation `DefaultPyFlowRuntime.createInstance`: post the request, store the
returned id in `instanceCache` under the class name, return the id. -/
def runtimeCreateInstance (env : Nat → String) (st : SysState)
    (className : String) (ctorArgs : List (String × String)) : SysState × String :=
  let id := env st.created
  ({ st with
      requests := st.requests ++ [.createInstance className ctorArgs]
      created := st.created + 1
      instanceCache := upsert className id st.instanceCache }, id)

/-- Runtime operation `DefaultPyFlowRuntime.callMethod`: read `instanceCache.get(className)` and
post the call-method request with that id in the payload. -/
def runtimeCallMethod (st : SysState) (className methodName : String)
    (args ctorArgs : List (String × String)) : SysState :=
  { st with
      requests := st.requests
        ++ [.callMethod className methodName args ctorArgs
              (lookupA className st.instanceCache)] }

/-- The emitted `_ensureInstance` of proxy number `i`: when the stored id is
falsy, call `createInstance` with the proxy's class name and captured
constructor arguments and store the returned id (the ghost `creators` trace
also records `i`). -/
def ensureInstance (env : Nat → String) (st : SysState) (i : Nat) : SysState :=
  match st.proxies.get? i with
  | none => st
  | some p =>
    if truthy p.instanceId then st
    else
      let res := runtimeCreateInstance env st p.className p.constructorArgs
      { res.1 with
          proxies := res.1.proxies.set i { p with instanceId := some res.2 }
          creators := res.1.creators ++ [i] }

/-- The emitted `_callPythonMethod` of proxy number `i`: first
`await this._ensureInstance()`, then
`pyflowRuntime.callMethod(this.constructor.name, methodName, args,
this._constructorArgs)`. -/
def callPythonMethod (env : Nat → String) (st : SysState) (i : Nat)
    (methodName : String) (args : List (String × String)) : SysState :=
  match (ensureInstance env st i).proxies.get? i with
  | none => ensureInstance env st i
  | some p =>
    runtimeCallMethod (ensureInstance env st i) p.className methodName args
      p.constructorArgs

/-- Constructing a proxy (`new C(...)`): `_constructorArgs` captured,
`_instanceId` initialized to `null`. -/
def newProxy (st : SysState) (className : String)
    (ctorArgs : List (String × String)) : SysState :=
  { st with proxies := st.proxies ++ [⟨className, ctorArgs, none⟩] }

/-- One client-side step: construct a proxy, or invoke a generated method on
proxy number `i`. -/
inductive ClientOp where
  | construct (className : String) (ctorArgs : List (String × String))
  | invoke (i : Nat) (methodName : String) (args : List (String × String))

def applyOp (env : Nat → String) (st : SysState) : ClientOp → SysState
  | .construct c a => newProxy st c a
  | .invoke i m a => callPythonMethod env st i m a

def runOps (env : Nat → String) (st : SysState) : List ClientOp → SysState
  | [] => st
  | op :: ops => runOps env (applyOp env st op) ops

/-- Truthiness of the stored id of proxy number `i` (false when there is no
such proxy). -/
def proxyTruthy (st : SysState) (i : Nat) : Bool :=
  match st.proxies.get? i with
  | some p => truthy p.instanceId
  | none => false

/-- The stored `_instanceId` of proxy number `i`. -/
def proxyStoredId (st : SysState) (i : Nat) : Option String :=
  match st.proxies.get? i with
  | some p => p.instanceId
  | none => none

/-- The `instance_id` field of the last posted request, when that request is
a call-method request. -/
def lastCallInstanceId (st : SysState) : Option String :=
  match st.requests.getLast? with
  | some (.callMethod _ _ _ _ iid) => iid
  | _ => none

/-! ### List access helpers for the proxy invariant -/

theorem getq_append_lt {α : Type} :
    ∀ (l l' : List α) (i : Nat), i < l.length → (l ++ l').get? i = l.get? i := by
  intro l
  induction l with
  | nil => intro l' i h; simp at h
  | cons hd tl ih =>
    intro l' i h
    cases i with
    | zero => rfl
    | succ j => exact ih l' j (Nat.lt_of_succ_lt_succ h)

theorem getq_append_self {α : Type} :
    ∀ (l : List α) (x : α), (l ++ [x]).get? l.length = some x := by
  intro l
  induction l with
  | nil => intro x; rfl
  | cons hd tl ih => intro x; exact ih x

theorem getq_append_gt {α : Type} :
    ∀ (l : List α) (x : α) (i : Nat), l.length < i → (l ++ [x]).get? i = none := by
  intro l
  induction l with
  | nil =>
    intro x i h
    cases i with
    | zero => simp at h
    | succ j => rfl
  | cons hd tl ih =>
    intro x i h
    cases i with
    | zero => simp at h
    | succ j => exact ih x j (Nat.lt_of_succ_lt_succ h)

theorem getq_set_self {α : Type} :
    ∀ (l : List α) (i : Nat) (a : α), i < l.length → (l.set i a).get? i = some a := by
  intro l
  induction l with
  | nil => intro i a h; simp at h
  | cons hd tl ih =>
    intro i a h
    cases i with
    | zero => rfl
    | succ j => exact ih j a (Nat.lt_of_succ_lt_succ h)

theorem getq_set_other {α : Type} :
    ∀ (l : List α) (i j : Nat) (a : α), i ≠ j → (l.set i a).get? j = l.get? j := by
  intro l
  induction l with
  | nil => intro i j a _; rfl
  | cons hd tl ih =>
    intro i j a hij
    cases i with
    | zero =>
      cases j with
      | zero => exact absurd rfl hij
      | succ k => rfl
    | succ i' =>
      cases j with
      | zero => rfl
      | succ k => exact ih i' k a (fun h => hij (congrArg Nat.succ h))

theorem getq_lt_length {α : Type} :
    ∀ (l : List α) (i : Nat) (a : α), l.get? i = some a → i < l.length := by
  intro l
  induction l with
  | nil => intro i a h; cases i <;> simp [List.get?] at h
  | cons hd tl ih =>
    intro i a h
    cases i with
    | zero => exact Nat.succ_pos _
    | succ j => exact Nat.succ_lt_succ (ih j a h)

/-! ### The per-proxy create-instance invariant -/

/-- Invariant of the client system: the ghost creator trace holds proxy `i`
exactly once when proxy `i` has a truthy stored id and never otherwise, and
its length is the number of create-instance requests posted so far. -/
def ProxyInv (st : SysState) : Prop :=
  (∀ i : Nat, st.creators.count i = if proxyTruthy st i then 1 else 0)
  ∧ st.creators.length = createCount st

theorem proxyInv_init : ProxyInv initState := by
  constructor
  · intro i
    simp [initState, proxyTruthy, List.get?]
  · rfl

theorem proxyInv_newProxy (st : SysState) (c : String)
    (a : List (String × String)) (h : ProxyInv st) : ProxyInv (newProxy st c a) := by
  obtain ⟨h1, h2⟩ := h
  constructor
  · intro i
    have hp : proxyTruthy (newProxy st c a) i = proxyTruthy st i := by
      unfold proxyTruthy newProxy
      simp only
      rcases Nat.lt_trichotomy i st.proxies.length with hlt | heq | hgt
      · rw [getq_append_lt _ _ _ hlt]
      · subst heq
        rw [getq_append_self]
        have : st.proxies.get? st.proxies.length = none := by
          rw [List.get?_eq_none]
        rw [this]
        rfl
      · rw [getq_append_gt _ _ _ hgt]
        have : st.proxies.get? i = none := by
          rw [List.get?_eq_none]
          exact Nat.le_of_lt hgt
        rw [this]
    rw [hp]
    exact h1 i
  · exact h2

theorem ensureInstance_of_none (env : Nat → String) (st : SysState) (i : Nat)
    (hgi : st.proxies.get? i = none) : ensureInstance env st i = st := by
  unfold ensureInstance
  rw [hgi]

theorem ensureInstance_of_truthy (env : Nat → String) (st : SysState) (i : Nat)
    (p : Proxy) (hgi : st.proxies.get? i = some p)
    (ht : truthy p.instanceId = true) : ensureInstance env st i = st := by
  unfold ensureInstance
  rw [hgi]
  simp [ht]

theorem ensureInstance_of_falsy (env : Nat → String) (st : SysState) (i : Nat)
    (p : Proxy) (hgi : st.proxies.get? i = some p)
    (ht : truthy p.instanceId = false) :
    ensureInstance env st i =
      { st with
          proxies := st.proxies.set i { p with instanceId := some (env st.created) }
          instanceCache := upsert p.className (env st.created) st.instanceCache
          created := st.created + 1
          requests := st.requests ++ [.createInstance p.className p.constructorArgs]
          creators := st.creators ++ [i] } := by
  unfold ensureInstance runtimeCreateInstance
  rw [hgi]
  simp [ht]

theorem proxyInv_ensure (env : Nat → String) (henv : ∀ n, env n ≠ "")
    (st : SysState) (i : Nat) (h : ProxyInv st) :
    ProxyInv (ensureInstance env st i) := by
  cases hgi : st.proxies.get? i with
  | none => rw [ensureInstance_of_none env st i hgi]; exact h
  | some p =>
    cases ht : truthy p.instanceId with
    | true => rw [ensureInstance_of_truthy env st i p hgi ht]; exact h
    | false =>
      rw [ensureInstance_of_falsy env st i p hgi ht]
      obtain ⟨h1, h2⟩ := h
      have hlen : i < st.proxies.length := getq_lt_length _ _ _ hgi
      constructor
      · intro j
        by_cases hij : j = i
        · subst hij
          have hget : (st.proxies.set j
              { p with instanceId := some (env st.created) }).get? j
              = some { p with instanceId := some (env st.created) } :=
            getq_set_self _ _ _ hlen
          have hold : st.creators.count j = 0 := by
            have hh := h1 j
            unfold proxyTruthy at hh
            rw [hgi] at hh
            simpa [ht] using hh
          unfold proxyTruthy
          dsimp only
          rw [hget]
          simp [truthy, henv st.created, List.count_append, hold]
        · have hset : (st.proxies.set i
              { p with instanceId := some (env st.created) }).get? j
              = st.proxies.get? j :=
            getq_set_other _ _ _ _ (fun hh => hij hh.symm)
          have hh := h1 j
          unfold proxyTruthy at hh ⊢
          dsimp only
          rw [hset]
          rw [List.count_append]
          simpa [hij] using hh
      · dsimp only
        rw [List.length_append]
        unfold createCount at h2 ⊢
        dsimp only
        rw [List.countP_append]
        simp [h2, Request.isCreate]

theorem proxyInv_callMethod (env : Nat → String) (henv : ∀ n, env n ≠ "")
    (st : SysState) (i : Nat) (m : String) (a : List (String × String))
    (h : ProxyInv st) : ProxyInv (callPythonMethod env st i m a) := by
  have h1 := proxyInv_ensure env henv st i h
  unfold callPythonMethod
  cases hgi : (ensureInstance env st i).proxies.get? i with
  | none => exact h1
  | some p =>
    obtain ⟨ha, hb⟩ := h1
    unfold runtimeCallMethod
    constructor
    · intro j
      have hh := ha j
      unfold proxyTruthy at hh ⊢
      dsimp only
      exact hh
    · dsimp only
      unfold createCount at hb ⊢
      dsimp only
      rw [List.countP_append]
      simp [hb, Request.isCreate]

theorem proxyInv_applyOp (env : Nat → String) (henv : ∀ n, env n ≠ "")
    (st : SysState) (op : ClientOp) (h : ProxyInv st) :
    ProxyInv (applyOp env st op) := by
  cases op with
  | construct c a => exact proxyInv_newProxy st c a h
  | invoke i m a => exact proxyInv_callMethod env henv st i m a h

theorem proxyInv_runOps (env : Nat → String) (henv : ∀ n, env n ≠ "") :
    ∀ (ops : List ClientOp) (st : SysState), ProxyInv st →
      ProxyInv (runOps env st ops) := by
  intro ops
  induction ops with
  | nil => intro st h; exact h
  | cons op rest ih =>
    intro st h
    exact ih (applyOp env st op) (proxyInv_applyOp env henv st op h)

/-! ## Claims C2 and C3 — proxy method calls and instance creation -/

/-- The scenario environment: the remote collaborator answers the first
create-instance call with "id0" and every later one with "id1". -/
def demoEnv : Nat → String := fun n => if n = 0 then "id0" else "id1"

/-- Two proxies of class C are constructed and a method is invoked on each. -/
def demoOps : List ClientOp :=
  [.construct "C" [], .construct "C" [], .invoke 0 "m" [], .invoke 1 "m" []]

/-- Later method calls on both existing proxies. -/
def demoLaterOps : List ClientOp :=
  [.invoke 0 "m" [], .invoke 1 "m2" [], .invoke 0 "m" []]

/-- The trace behind the C2 counterexample: two proxies of class C, a method
call on each, then a second method call on the first proxy. -/
def c2Trace : SysState :=
  runOps demoEnv initState (demoOps ++ [.invoke 0 "m" []])

/-- Claim C2, counterexample: after two proxies of the same class have each
ensured their remote instance, a further method call on the first proxy posts
a call-method request whose `instance_id` is the second proxy's id ("id1",
read from the runtime's class-name-keyed `instanceCache`), not the first
proxy's own stored identity ("id0") — the emitted `_callPythonMethod` never
passes `this._instanceId`, so the payload identity is whatever instance of
that class was created last. -/
theorem C2_counterexample :
    lastCallInstanceId c2Trace = some "id1"
    ∧ proxyStoredId c2Trace 0 = some "id0"
    ∧ lastCallInstanceId c2Trace ≠ proxyStoredId c2Trace 0 :=
  ⟨rfl, rfl, by decide⟩

/-- Claim C2, amended: every invocation of a generated method first runs
`_ensureInstance` and then posts exactly one call-method request carrying the
proxy's type name, the method name, the argument record and the captured
constructor arguments — but the `instance_id` in the payload is the runtime's
`instanceCache` entry for the class name (the id of the most recently created
instance of that class), not the calling proxy's own stored identity. -/
theorem C2_amended_call_payload (env : Nat → String) (st : SysState) (i : Nat)
    (mname : String) (args : List (String × String)) (p : Proxy)
    (hp : (ensureInstance env st i).proxies.get? i = some p) :
    (callPythonMethod env st i mname args).requests
      = (ensureInstance env st i).requests
        ++ [Request.callMethod p.className mname args p.constructorArgs
              (lookupA p.className (ensureInstance env st i).instanceCache)] := by
  unfold callPythonMethod
  rw [hp]
  rfl

/-- Witness for C2_amended_call_payload on a freshly constructed proxy. -/
theorem C2_amended_call_payload_witness :
    (callPythonMethod demoEnv (newProxy initState "C" []) 0 "m" []).requests
      = (ensureInstance demoEnv (newProxy initState "C" []) 0).requests
        ++ [Request.callMethod "C" "m" [] []
              (lookupA "C"
                (ensureInstance demoEnv (newProxy initState "C" []) 0).instanceCache)] :=
  C2_amended_call_payload demoEnv (newProxy initState "C" []) 0 "m" []
    ⟨"C", [], some "id0"⟩ rfl

/-- Claim C3 (confirmed): provided the remote collaborator returns non-empty
(JS-truthy) identity handles, the ghost creator trace holds every proxy index
at most once — `_ensureInstance` issues at most one create-instance call over
a proxy's lifetime — and the trace length always equals the number of
create-instance requests; concretely, constructing two proxies of class C and
invoking a method on each posts exactly two create-instance requests, and any
number of later method calls on either proxy posts zero additional ones. -/
theorem C3_create_instance_once :
    (∀ env : Nat → String, (∀ n, env n ≠ "") → ∀ (ops : List ClientOp) (i : Nat),
        (runOps env initState ops).creators.count i ≤ 1
        ∧ (runOps env initState ops).creators.length
            = createCount (runOps env initState ops))
    ∧ createCount (runOps demoEnv initState demoOps) = 2
    ∧ createCount (runOps demoEnv initState (demoOps ++ demoLaterOps)) = 2 := by
  refine ⟨?_, rfl, rfl⟩
  intro env henv ops i
  have h := proxyInv_runOps env henv ops initState proxyInv_init
  obtain ⟨h1, h2⟩ := h
  refine ⟨?_, h2⟩
  rw [h1 i]
  by_cases hb : proxyTruthy (runOps env initState ops) i <;> simp [hb]

/-- Witness for C3_create_instance_once on the concrete scenario. -/
theorem C3_create_instance_once_witness :
    (runOps demoEnv initState demoOps).creators.count 0 ≤ 1 :=
  (C3_create_instance_once.1 demoEnv
    (by intro n; unfold demoEnv; split <;> decide) demoOps 0).1

/-! ## Generation as a file-system transformation (C1)

`TypeScriptGenerator.generate_all` (src/pyflow/generators/ts_generator.py):
`generate_runtime` writes the runtime file at the output root with mode 'w';
`generate_module` writes `<module_path>/index.ts` with mode 'w' and copies the
runtime to the module's top-level package directory when absent;
`generate_index` builds the module tree from `registry.modules`, then for
every tree node with children or with registered content writes (when the
file is absent), skips (when the existing content equals the new content) or
appends (otherwise) the aggregating index file, and finally rewrites the root
`index.ts` with mode 'w'.

A dotted module name is modelled as its '.'-split segment list (the
join/split round-trip is the identity, and `module_name.replace('.', '/')`
then is exactly the segment list as a path).  A file path is the directory
segment list plus which of the two generated file names it carries.  The
file system is a map from paths to contents; `fun q => if q = p …` writes are
mode-'w' truncating writes.

The module body emitted by `generate_module` (its classes, functions and
referenced types, src lines 269-433) is a deterministic function of the
registry content for that module; with the registry unchanged between runs it
is held abstract as `GenEnv.moduleCode`, with `none` standing for the
early-return paths of `generate_module` (nothing found / module failed),
in which case no file is written for that module. -/

inductive FName where
  | indexTs
  | pyflowRuntimeTs
deriving DecidableEq

abbrev OutPath := List String × FName

abbrev FS := OutPath → Option String

def emptyFS : FS := fun _ => none

/-- A mode-'w' write: truncate and write fresh content. -/
def fwrite (p : OutPath) (c : String) (fs : FS) : FS :=
  fun q => if q = p then some c else fs q

/-- The generation environment: `registry.modules` in its (fixed) iteration
order, the module body each module emits (deterministic in the unchanged
registry), and `self.runtime_code`. -/
structure GenEnv where
  modules : List (List String)
  moduleCode : List String → Option String
  runtimeCode : String

/-- Leaf file path `output_dir / module_path / "index.ts"`. -/
def leafPath (m : List String) : OutPath := (m, .indexTs)

/-- The runtime copy target of `generate_module`: starting from the module
directory (`depth` segments), `.parent` is applied `depth - 1` times, landing
on the first segment. -/
def rtPath (m : List String) : OutPath := (m.take 1, .pyflowRuntimeTs)

/-- Embedding of `generate_runtime`: write the runtime file at the output root. -/
def generate_runtime (env : GenEnv) (fs : FS) : FS :=
  fwrite ([], .pyflowRuntimeTs) env.runtimeCode fs

/-- Embedding of `generate_module` (src/pyflow/generators/ts_generator.py, lines 269-454):
write the module's `index.ts` fresh, then copy the runtime file to the
top-level package directory if it does not exist yet. -/
def generate_module (env : GenEnv) (fs : FS) (m : List String) : FS :=
  match env.moduleCode m with
  | none => fs
  | some code =>
    match fwrite (leafPath m) code fs (rtPath m) with
    | some _ => fwrite (leafPath m) code fs
    | none => fwrite (rtPath m) env.runtimeCode (fwrite (leafPath m) code fs)

/-- One node of `module_tree`: the dotted prefix (as segments) and its
accumulated child set. -/
structure TreeEntry where
  key : List String
  children : List (List String)
deriving DecidableEq

def containsKey : List TreeEntry → List String → Bool
  | [], _ => false
  | e :: rest, k => if e.key = k then true else containsKey rest k

/-- Insertion `module_tree[parent].add(child)` — Python-set insertion into the child
set of the named node. -/
def insertChild (tree : List TreeEntry) (parent child : List String) :
    List TreeEntry :=
  tree.map fun e =>
    if e.key = parent then
      { e with children := if child ∈ e.children then e.children
                           else e.children ++ [child] }
    else e

/-- The inner loop of the tree build: for `i` in `range(1, len(parts)+1)`,
ensure the prefix `parts[:i]` is a node and, when `i < len(parts)`, add
`parts[:i+1]` to its children.  (`i` here runs from 0, shifted by one.) -/
def addModuleToTree (tree : List TreeEntry) (parts : List String) :
    List TreeEntry :=
  (List.range parts.length).foldl
    (fun tree i =>
      let tree1 := if containsKey tree (parts.take (i + 1)) then tree
                   else tree ++ [⟨parts.take (i + 1), []⟩]
      if i + 1 < parts.length then
        insertChild tree1 (parts.take (i + 1)) (parts.take (i + 2))
      else tree1)
    tree

/-- The tree `module_tree` built over `registry.modules`, nodes in insertion order. -/
def buildTree (mods : List (List String)) : List TreeEntry :=
  mods.foldl addModuleToTree []

/-- Lexicographic character-list order (Python's string `<` on code points). -/
def charListLe : List Char → List Char → Bool
  | [], _ => true
  | _ :: _, [] => false
  | a :: as, b :: bs => if a < b then true else if b < a then false else charListLe as bs

def strLe (a b : String) : Bool := charListLe a.data b.data

def insertSorted (s : String) : List String → List String
  | [] => [s]
  | t :: ts => if strLe s t then s :: t :: ts else t :: insertSorted s ts

/-- Python's `sorted` on a list of strings (ascending, stable). -/
def sortStrings (l : List String) : List String := l.foldr insertSorted []

/-- The list `direct_children`: children exactly one segment longer than the node,
reduced to their last segment. -/
def directChildren (key : List String) (children : List (List String)) :
    List String :=
  (children.filter fun c => c.length = key.length + 1).map
    fun c => c.getLastD ""

/-- The content `generate_index` composes for one tree node. -/
def indexContent (env : GenEnv) (e : TreeEntry) : String :=
  let dcs := sortStrings (directChildren e.key e.children)
  let base := "// Generated by PyFlow.ts - DO NOT EDIT\n"
  if dcs ≠ [] then
    base ++ String.join (dcs.map fun c =>
      "export * from \x27./" ++ c ++ "/index.js\x27;\n")
  else if e.key ∈ env.modules then
    base ++ "// No child modules to export, but this module contains decorated items\n"
      ++ "// The contents are directly available from this module\n"
  else
    base ++ "// Empty module structure\n"

/-- The write discipline of `generate_index` for one index file
(src/pyflow/generators/ts_generator.py, lines 504-515): write when absent, do
nothing when the existing content equals the new content, append otherwise. -/
def indexWrite (p : OutPath) (c : String) (fs : FS) : FS :=
  fun q =>
    if q = p then
      match fs p with
      | none => some c
      | some old => if old = c then some old else some (old ++ c)
    else fs q

/-- One iteration of the `generate_index` node loop. -/
def indexStep (env : GenEnv) (fs : FS) (e : TreeEntry) : FS :=
  if e.children ≠ [] ∨ e.key ∈ env.modules then
    indexWrite (leafPath e.key) (indexContent env e) fs
  else fs

/-- The root `index.ts` content: header, runtime import, one export line per
sorted top-level (single-segment) tree key, runtime re-export. -/
def rootContent (env : GenEnv) : String :=
  let tops := sortStrings ((buildTree env.modules).filterMap
    fun e => match e.key with
             | [s] => some s
             | _ => none)
  "// Root index file generated by PyFlow.ts\n"
    ++ "// This file aggregates all exports from all modules\n\n"
    ++ "import \x7b pyflowRuntime \x7d from \x27./pyflowRuntime.js\x27;\n\n"
    ++ String.join (tops.map fun m =>
        "export * from \x27./" ++ m ++ "/index.js\x27;\n")
    ++ "\nexport \x7b pyflowRuntime \x7d;\n"

/-- Embedding of `generate_index` (src/pyflow/generators/ts_generator.py, lines 456-533):
the node loop over the module tree, then the mode-'w' rewrite of the root
index file. -/
def generate_index (env : GenEnv) (fs : FS) : FS :=
  fwrite ([], .indexTs) (rootContent env)
    ((buildTree env.modules).foldl (indexStep env) fs)

/-- Embedding of `generate_all` (src/pyflow/generators/ts_generator.py, lines 535-545):
runtime, then every module, then the index files. -/
def generate_all (env : GenEnv) (fs : FS) : FS :=
  generate_index env (env.modules.foldl (generate_module env) (generate_runtime env fs))

/-! ### Pointwise view of the generation pass

Every file operation above changes the value at a path `q` as a function of
the old value at `q` alone, so the whole pass acts pointwise; idempotence is
then a per-path case analysis on the shape of that value transformer. -/

/-- Pointwise action of `generate_module` at path `q`. -/
def moduleAt (env : GenEnv) (m : List String) (q : OutPath)
    (v : Option String) : Option String :=
  match env.moduleCode m with
  | none => v
  | some code =>
    if q = rtPath m then
      match (if q = leafPath m then some code else v) with
      | some w => some w
      | none => some env.runtimeCode
    else if q = leafPath m then some code else v

/-- The append-or-write update of `indexWrite` as a value transformer. -/
def indexUpd (c : String) (v : Option String) : Option String :=
  match v with
  | none => some c
  | some old => if old = c then some old else some (old ++ c)

/-- Pointwise action of `indexStep` at path `q`. -/
def indexAt (env : GenEnv) (e : TreeEntry) (q : OutPath)
    (v : Option String) : Option String :=
  if (e.children ≠ [] ∨ e.key ∈ env.modules) ∧ q = leafPath e.key then
    indexUpd (indexContent env e) v
  else v

/-- Pointwise action of `generate_runtime`. -/
def runtimeAt (env : GenEnv) (q : OutPath) (v : Option String) : Option String :=
  if q = (([] : List String), FName.pyflowRuntimeTs) then some env.runtimeCode else v

/-- Pointwise action of the final root-index write. -/
def rootAt (env : GenEnv) (q : OutPath) (v : Option String) : Option String :=
  if q = (([] : List String), FName.indexTs) then some (rootContent env) else v

def modFoldAt (env : GenEnv) (q : OutPath) (v : Option String) : Option String :=
  env.modules.foldl (fun v m => moduleAt env m q v) v

def treeFoldAt (env : GenEnv) (q : OutPath) (v : Option String) : Option String :=
  (buildTree env.modules).foldl (fun v e => indexAt env e q v) v

def genAllAt (env : GenEnv) (q : OutPath) (v : Option String) : Option String :=
  rootAt env q (treeFoldAt env q (modFoldAt env q (runtimeAt env q v)))

theorem generate_module_at (env : GenEnv) (fs : FS) (m : List String)
    (q : OutPath) : generate_module env fs m q = moduleAt env m q (fs q) := by
  unfold generate_module moduleAt fwrite
  cases env.moduleCode m with
  | none => rfl
  | some code =>
    dsimp only
    by_cases hrt : q = rtPath m
    · subst hrt
      cases hv : (if (rtPath m : OutPath) = leafPath m then some code
          else fs (rtPath m)) with
      | some w => simp [hv]
      | none => simp [hv]
    · cases hv : (if (rtPath m : OutPath) = leafPath m then some code
          else fs (rtPath m)) with
      | some w => simp [hv, hrt]
      | none => simp [hv, hrt]

theorem indexStep_at (env : GenEnv) (fs : FS) (e : TreeEntry) (q : OutPath) :
    indexStep env fs e q = indexAt env e q (fs q) := by
  unfold indexStep indexAt indexWrite indexUpd
  by_cases hc : e.children ≠ [] ∨ e.key ∈ env.modules
  · by_cases hq : q = leafPath e.key
    · subst hq
      simp [hc]
    · simp [hc, hq]
  · simp [hc]

theorem foldl_module_at (env : GenEnv) (q : OutPath) :
    ∀ (mods : List (List String)) (fs : FS),
      mods.foldl (generate_module env) fs q
        = mods.foldl (fun v m => moduleAt env m q v) (fs q) := by
  intro mods
  induction mods with
  | nil => intro fs; rfl
  | cons m ms ih =>
    intro fs
    show ms.foldl (generate_module env) (generate_module env fs m) q = _
    rw [ih (generate_module env fs m)]
    rw [generate_module_at]
    rfl

theorem foldl_index_at (env : GenEnv) (q : OutPath) :
    ∀ (entries : List TreeEntry) (fs : FS),
      entries.foldl (indexStep env) fs q
        = entries.foldl (fun v e => indexAt env e q v) (fs q) := by
  intro entries
  induction entries with
  | nil => intro fs; rfl
  | cons e es ih =>
    intro fs
    show es.foldl (indexStep env) (indexStep env fs e) q = _
    rw [ih (indexStep env fs e)]
    rw [indexStep_at]
    rfl

theorem generate_all_at (env : GenEnv) (fs : FS) (q : OutPath) :
    generate_all env fs q = genAllAt env q (fs q) := by
  unfold generate_all generate_index genAllAt rootAt fwrite
  rw [foldl_index_at, foldl_module_at]
  unfold generate_runtime fwrite runtimeAt modFoldAt treeFoldAt
  by_cases hq : q = (([] : List String), FName.indexTs) <;> simp [hq]

/-! ### Generic fold lemmas -/

theorem foldl_id_of_steps {α β : Type} (f : α → β → α) :
    ∀ (l : List β), (∀ b ∈ l, ∀ v, f v b = v) → ∀ v, l.foldl f v = v := by
  intro l
  induction l with
  | nil => intro _ v; rfl
  | cons b bs ih =>
    intro h v
    rw [List.foldl_cons, h b (List.mem_cons_self b bs) v]
    exact ih (fun b' hb' => h b' (List.mem_cons_of_mem b hb')) v

theorem foldl_fixpoint {α β : Type} (f : α → β → α) (w : α) :
    ∀ (l : List β), (∀ b, f w b = w) → l.foldl f w = w := by
  intro l
  induction l with
  | nil => intro _; rfl
  | cons b bs ih =>
    intro h
    rw [List.foldl_cons, h b]
    exact ih h

theorem foldl_pair {α β : Type} (f : α → β → α) (a b : α) :
    ∀ (l : List β), (∀ x, f a x = a ∨ f a x = b) → (∀ x, f b x = b) →
      l.foldl f a = a ∨ l.foldl f a = b := by
  intro l
  induction l with
  | nil => intro _ _; left; rfl
  | cons x xs ih =>
    intro ha hb
    rw [List.foldl_cons]
    rcases ha x with h | h
    · rw [h]; exact ih ha hb
    · rw [h]; right; exact foldl_fixpoint f b xs hb

theorem foldl_preserve {α β : Type} (P : α → Prop) (f : α → β → α)
    (h : ∀ a b, P a → P (f a b)) :
    ∀ (l : List β) (a : α), P a → P (l.foldl f a) := by
  intro l
  induction l with
  | nil => intro a ha; exact ha
  | cons b bs ih =>
    intro a ha
    rw [List.foldl_cons]
    exact ih (f a b) (h a b ha)

/-! ### Per-path behavior of the transformers -/

theorem moduleAt_rt_some (env : GenEnv) (m segs : List String) (w : String) :
    moduleAt env m (segs, FName.pyflowRuntimeTs) (some w) = some w := by
  unfold moduleAt
  cases env.moduleCode m with
  | none => rfl
  | some code =>
    dsimp only
    have hlf : ((segs, FName.pyflowRuntimeTs) : OutPath) ≠ leafPath m := by
      simp [leafPath]
    have hrl : rtPath m ≠ leafPath m := by simp [rtPath, leafPath]
    by_cases hrt : ((segs, FName.pyflowRuntimeTs) : OutPath) = rtPath m <;>
      simp [hrt, hlf, hrl]

theorem moduleAt_rt_none (env : GenEnv) (m segs : List String) :
    moduleAt env m (segs, FName.pyflowRuntimeTs) none = none
    ∨ moduleAt env m (segs, FName.pyflowRuntimeTs) none = some env.runtimeCode := by
  unfold moduleAt
  cases env.moduleCode m with
  | none => left; rfl
  | some code =>
    dsimp only
    have hlf : ((segs, FName.pyflowRuntimeTs) : OutPath) ≠ leafPath m := by
      simp [leafPath]
    have hrl : rtPath m ≠ leafPath m := by simp [rtPath, leafPath]
    by_cases hrt : ((segs, FName.pyflowRuntimeTs) : OutPath) = rtPath m
    · right; simp [hrt, hlf, hrl]
    · left; simp [hrt, hlf, hrl]

theorem moduleAt_idx_ne (env : GenEnv) (m segs : List String) (hm : m ≠ segs)
    (v : Option String) : moduleAt env m (segs, FName.indexTs) v = v := by
  unfold moduleAt
  cases env.moduleCode m with
  | none => rfl
  | some code =>
    dsimp only
    have hrt : ((segs, FName.indexTs) : OutPath) ≠ rtPath m := by simp [rtPath]
    have hlf : ((segs, FName.indexTs) : OutPath) ≠ leafPath m := by
      simp only [leafPath, ne_eq, Prod.mk.injEq, and_true]
      exact fun h => hm h.symm
    simp [hrt, hlf]

theorem moduleAt_idx_self_none (env : GenEnv) (segs : List String)
    (hc : env.moduleCode segs = none) (v : Option String) :
    moduleAt env segs (segs, FName.indexTs) v = v := by
  unfold moduleAt
  rw [hc]

theorem moduleAt_idx_self_some (env : GenEnv) (segs : List String) (c : String)
    (hc : env.moduleCode segs = some c) (v : Option String) :
    moduleAt env segs (segs, FName.indexTs) v = some c := by
  unfold moduleAt
  rw [hc]
  dsimp only
  have hrt : ((segs, FName.indexTs) : OutPath) ≠ rtPath segs := by simp [rtPath]
  simp [hrt, leafPath]

theorem indexAt_rt (env : GenEnv) (e : TreeEntry) (segs : List String)
    (v : Option String) : indexAt env e (segs, FName.pyflowRuntimeTs) v = v := by
  unfold indexAt
  have h : ((segs, FName.pyflowRuntimeTs) : OutPath) ≠ leafPath e.key := by
    simp [leafPath]
  simp [h]

theorem indexAt_idx_ne (env : GenEnv) (e : TreeEntry) (segs : List String)
    (h : e.key ≠ segs) (v : Option String) :
    indexAt env e (segs, FName.indexTs) v = v := by
  unfold indexAt
  have h2 : ((segs, FName.indexTs) : OutPath) ≠ leafPath e.key := by
    simp only [leafPath, ne_eq, Prod.mk.injEq, and_true]
    exact fun hh => h hh.symm
  simp [h2]

theorem indexAt_of_cond (env : GenEnv) (e : TreeEntry) (segs : List String)
    (hk : e.key = segs) (hcnd : e.children ≠ [] ∨ e.key ∈ env.modules)
    (v : Option String) :
    indexAt env e (segs, FName.indexTs) v = indexUpd (indexContent env e) v := by
  unfold indexAt
  have hq : ((segs, FName.indexTs) : OutPath) = leafPath e.key := by
    simp [leafPath, hk]
  rw [if_pos ⟨hcnd, hq⟩]

theorem indexAt_of_notcond (env : GenEnv) (e : TreeEntry) (q : OutPath)
    (hcnd : ¬ (e.children ≠ [] ∨ e.key ∈ env.modules)) (v : Option String) :
    indexAt env e q v = v := by
  unfold indexAt
  simp [hcnd]

/-! ### The tree keys are duplicate-free -/

def treeKeys (tree : List TreeEntry) : List (List String) :=
  tree.map TreeEntry.key

theorem containsKey_eq_mem :
    ∀ (tree : List TreeEntry) (k : List String),
      containsKey tree k = true ↔ k ∈ treeKeys tree := by
  intro tree
  induction tree with
  | nil => intro k; simp [containsKey, treeKeys]
  | cons e rest ih =>
    intro k
    by_cases h : e.key = k
    · simp [containsKey, treeKeys, h]
    · simp only [containsKey, if_neg h, treeKeys, List.map_cons, List.mem_cons]
      rw [ih k]
      constructor
      · intro hm; exact Or.inr hm
      · rintro (hm | hm)
        · exact absurd hm.symm h
        · exact hm
      
theorem treeKeys_insertChild (p c : List String) :
    ∀ (tree : List TreeEntry), treeKeys (insertChild tree p c) = treeKeys tree := by
  intro tree
  induction tree with
  | nil => rfl
  | cons e rest ih =>
    simp only [insertChild, treeKeys, List.map_cons] at ih ⊢
    by_cases h : e.key = p <;> simp [h, ih]

theorem treeKeys_append_one (tree : List TreeEntry) (e : TreeEntry) :
    treeKeys (tree ++ [e]) = treeKeys tree ++ [e.key] := by
  simp [treeKeys]

theorem addModuleToTree_nodup (parts : List String) (tree : List TreeEntry)
    (h : (treeKeys tree).Nodup) : (treeKeys (addModuleToTree tree parts)).Nodup := by
  unfold addModuleToTree
  refine foldl_preserve (fun t => (treeKeys t).Nodup) _ ?_ _ tree h
  intro t i ht
  by_cases hck : containsKey t (parts.take (i + 1))
  · by_cases hlt : i + 1 < parts.length <;>
      simp only [hck, if_true, hlt, if_false, reduceIte] <;>
      first
        | (rw [treeKeys_insertChild]; exact ht)
        | exact ht
  · have hmem : parts.take (i + 1) ∉ treeKeys t := by
      intro hm
      exact hck ((containsKey_eq_mem t (parts.take (i + 1))).mpr hm)
    have hnd : (treeKeys (t ++ [⟨parts.take (i + 1), []⟩])).Nodup := by
      rw [treeKeys_append_one]
      simp only [List.nodup_append, List.nodup_singleton, true_and]
      exact ⟨ht, by simpa using hmem⟩
    by_cases hlt : i + 1 < parts.length <;>
      simp only [hck, if_false, hlt, if_true, reduceIte] <;>
      first
        | (rw [treeKeys_insertChild]; exact hnd)
        | exact hnd

theorem buildTree_keys_nodup (mods : List (List String)) :
    (treeKeys (buildTree mods)).Nodup := by
  unfold buildTree
  refine foldl_preserve (fun t => (treeKeys t).Nodup) _ ?_ _ [] (by simp [treeKeys])
  intro t parts ht
  exact addModuleToTree_nodup parts t ht

/-! ### Shape of the per-path composite transformer -/

theorem modFold_idx_aux (env : GenEnv) (segs : List String) :
    ∀ (mods : List (List String)),
      (∀ v, mods.foldl (fun v m => moduleAt env m (segs, FName.indexTs) v) v = v)
      ∨ (∃ c, env.moduleCode segs = some c
          ∧ ∀ v, mods.foldl (fun v m => moduleAt env m (segs, FName.indexTs) v) v
              = some c) := by
  intro mods
  induction mods with
  | nil => left; intro v; rfl
  | cons m ms ih =>
    by_cases hm : m = segs
    · subst hm
      cases hc : env.moduleCode m with
      | none =>
        have hstep : ∀ v, moduleAt env m (m, FName.indexTs) v = v :=
          moduleAt_idx_self_none env m hc
        rcases ih with h | ⟨c, hc', h⟩
        · left
          intro v
          rw [List.foldl_cons, hstep]
          exact h v
        · rw [hc] at hc'
          cases hc'
      | some c =>
        have hstep : ∀ v, moduleAt env m (m, FName.indexTs) v = some c :=
          moduleAt_idx_self_some env m c hc
        rcases ih with h | ⟨c', hc', h⟩
        · right
          exact ⟨c, rfl, fun v => by rw [List.foldl_cons, hstep]; exact h (some c)⟩
        · rw [hc] at hc'
          injection hc' with hcc
          subst hcc
          right
          exact ⟨c, rfl, fun v => by rw [List.foldl_cons, hstep]; exact h (some c)⟩
    · have hstep : ∀ v, moduleAt env m (segs, FName.indexTs) v = v :=
        moduleAt_idx_ne env m segs hm
      rcases ih with h | ⟨c, hc, h⟩
      · left
        intro v
        rw [List.foldl_cons, hstep]
        exact h v
      · right
        exact ⟨c, hc, fun v => by rw [List.foldl_cons, hstep]; exact h v⟩

theorem treeFold_idx_aux (env : GenEnv) (segs : List String) :
    ∀ (entries : List TreeEntry), (treeKeys entries).Nodup →
      (∀ v, entries.foldl (fun v e => indexAt env e (segs, FName.indexTs) v) v = v)
      ∨ (∃ d, ∀ v,
          entries.foldl (fun v e => indexAt env e (segs, FName.indexTs) v) v
            = indexUpd d v) := by
  intro entries
  induction entries with
  | nil => intro _; left; intro v; rfl
  | cons e es ih =>
    intro hnd
    have hnd' : (treeKeys es).Nodup := by
      simp only [treeKeys, List.map_cons, List.nodup_cons] at hnd
      exact hnd.2
    have hke : e.key ∉ treeKeys es := by
      simp only [treeKeys, List.map_cons, List.nodup_cons] at hnd
      exact hnd.1
    by_cases hk : e.key = segs
    · by_cases hcnd : e.children ≠ [] ∨ e.key ∈ env.modules
      · -- this entry updates the file; no later entry can touch it again
        have hrest : ∀ e' ∈ es, ∀ v,
            indexAt env e' (segs, FName.indexTs) v = v := by
          intro e' he' v
          refine indexAt_idx_ne env e' segs ?_ v
          intro heq
          exact hke (by
            rw [hk, ← heq]
            exact List.mem_map_of_mem TreeEntry.key he')
        right
        refine ⟨indexContent env e, fun v => ?_⟩
        rw [List.foldl_cons, indexAt_of_cond env e segs hk hcnd]
        exact foldl_id_of_steps _ es hrest _
      · have hstep : ∀ v, indexAt env e (segs, FName.indexTs) v = v :=
          fun v => indexAt_of_notcond env e _ hcnd v
        rcases ih hnd' with h | ⟨d, h⟩
        · left
          intro v
          rw [List.foldl_cons, hstep]
          exact h v
        · right
          exact ⟨d, fun v => by rw [List.foldl_cons, hstep]; exact h v⟩
    · have hstep : ∀ v, indexAt env e (segs, FName.indexTs) v = v :=
        indexAt_idx_ne env e segs hk
      rcases ih hnd' with h | ⟨d, h⟩
      · left
        intro v
        rw [List.foldl_cons, hstep]
        exact h v
      · right
        exact ⟨d, fun v => by rw [List.foldl_cons, hstep]; exact h v⟩

theorem modFold_idx_char (env : GenEnv) (segs : List String) :
    (∀ v, modFoldAt env (segs, FName.indexTs) v = v)
    ∨ (∃ c, env.moduleCode segs = some c
        ∧ ∀ v, modFoldAt env (segs, FName.indexTs) v = some c) :=
  modFold_idx_aux env segs env.modules

theorem treeFold_idx_char (env : GenEnv) (segs : List String) :
    (∀ v, treeFoldAt env (segs, FName.indexTs) v = v)
    ∨ (∃ d, ∀ v, treeFoldAt env (segs, FName.indexTs) v = indexUpd d v) :=
  treeFold_idx_aux env segs (buildTree env.modules) (buildTree_keys_nodup env.modules)

theorem treeFold_rt_id (env : GenEnv) (segs : List String) (v : Option String) :
    treeFoldAt env (segs, FName.pyflowRuntimeTs) v = v :=
  foldl_id_of_steps _ (buildTree env.modules)
    (fun e _ v' => indexAt_rt env e segs v') v

theorem modFold_rt_some (env : GenEnv) (segs : List String) (w : String) :
    modFoldAt env (segs, FName.pyflowRuntimeTs) (some w) = some w :=
  foldl_fixpoint _ (some w) env.modules
    (fun m => moduleAt_rt_some env m segs w)

theorem modFold_rt_none (env : GenEnv) (segs : List String) :
    modFoldAt env (segs, FName.pyflowRuntimeTs) none = none
    ∨ modFoldAt env (segs, FName.pyflowRuntimeTs) none = some env.runtimeCode :=
  foldl_pair _ none (some env.runtimeCode) env.modules
    (fun m => moduleAt_rt_none env m segs)
    (fun m => moduleAt_rt_some env m segs env.runtimeCode)

theorem genAllAt_idem (env : GenEnv) (q : OutPath) :
    genAllAt env q (genAllAt env q none) = genAllAt env q none := by
  obtain ⟨segs, fn⟩ := q
  cases fn with
  | pyflowRuntimeTs =>
    have hroot : ∀ v, rootAt env (segs, FName.pyflowRuntimeTs) v = v := by
      intro v; simp [rootAt]
    unfold genAllAt
    simp only [hroot, treeFold_rt_id]
    by_cases hseg : segs = []
    · subst hseg
      have hrun : ∀ v, runtimeAt env (([] : List String), FName.pyflowRuntimeTs) v
          = some env.runtimeCode := by
        intro v; simp [runtimeAt]
      simp only [hrun, modFold_rt_some]
    · have hrun : ∀ v, runtimeAt env (segs, FName.pyflowRuntimeTs) v = v := by
        intro v; simp [runtimeAt, hseg]
      simp only [hrun]
      rcases modFold_rt_none env segs with h | h
      · rw [h]; exact h
      · rw [h]; exact modFold_rt_some env segs env.runtimeCode
  | indexTs =>
    by_cases hseg : segs = []
    · subst hseg
      have hroot : ∀ v, rootAt env (([] : List String), FName.indexTs) v
          = some (rootContent env) := by
        intro v; simp [rootAt]
      unfold genAllAt
      simp only [hroot]
    · have hroot : ∀ v, rootAt env (segs, FName.indexTs) v = v := by
        intro v; simp [rootAt, hseg]
      have hrun : ∀ v, runtimeAt env (segs, FName.indexTs) v = v := by
        intro v; simp [runtimeAt]
      unfold genAllAt
      simp only [hroot, hrun]
      rcases modFold_idx_char env segs with hF | ⟨c, _, hF⟩
      · simp only [hF]
        rcases treeFold_idx_char env segs with hG | ⟨d, hG⟩
        · simp only [hG]
        · simp only [hG]
          simp [indexUpd]
      · simp only [hF]

/-- Claim C1 (confirmed): running the full generation pass (runtime file,
module emission, index-file generation) twice against an unchanged registry
produces exactly the files of a single run: mode-'w' truncating writes make
the leaf and root files fresh each run, the runtime copies are only written
when absent with fixed content, and the append-on-exists discipline of
`generate_index` re-fires identically because each module's `index.ts` has
just been truncated back to the module body, while pure aggregating index
files compare equal and are skipped — so no index file gains duplicate
export lines on the second run. -/
theorem C1_generation_idempotent (env : GenEnv) :
    generate_all env (generate_all env emptyFS) = generate_all env emptyFS := by
  funext q
  rw [generate_all_at env (generate_all env emptyFS) q,
      generate_all_at env emptyFS q]
  exact genAllAt_idem env q

def demoGenEnv : GenEnv :=
  ⟨[["a", "b"], ["c"]],
   fun m => if m = ["a", "b"] then some "AB\n" else some "CC\n",
   "RT"⟩

example : generate_all demoGenEnv emptyFS (([] : List String), FName.pyflowRuntimeTs)
    = some "RT" := rfl
example : generate_all demoGenEnv emptyFS ((["a"] : List String), FName.pyflowRuntimeTs)
    = some "RT" := rfl
example : generate_all demoGenEnv emptyFS ((["a"] : List String), FName.indexTs)
    = some ("// Generated by PyFlow.ts - DO NOT EDIT\n"
        ++ "export * from \x27./b/index.js\x27;\n") := rfl
example : generate_all demoGenEnv emptyFS ((["a", "b"] : List String), FName.indexTs)
    = some ("AB\n" ++ "// Generated by PyFlow.ts - DO NOT EDIT\n"
        ++ "// No child modules to export, but this module contains decorated items\n"
        ++ "// The contents are directly available from this module\n") := rfl
example : generate_all demoGenEnv emptyFS ((["b"] : List String), FName.indexTs)
    = none := rfl
example : generate_all demoGenEnv emptyFS (([] : List String), FName.indexTs)
    = some ("// Root index file generated by PyFlow.ts\n"
        ++ "// This file aggregates all exports from all modules\n\n"
        ++ "import \x7b pyflowRuntime \x7d from \x27./pyflowRuntime.js\x27;\n\n"
        ++ "export * from \x27./a/index.js\x27;\n"
        ++ "export * from \x27./c/index.js\x27;\n"
        ++ "\nexport \x7b pyflowRuntime \x7d;\n") := rfl
